import Mathlib

/-!
# Turntable controller: a shallow embedding of `src/turntable.c`

The C functions are embedded as pure functions passing the turntable record and
the GPIO world explicitly.

* Machine integers are `Int`; every value stored into a C `int` goes through
  `toCInt` (two's complement, 32 bits).
* The GPIO world `Gpio` holds the motor output latch, the two event-detect
  status bits, the hardware activity still to come (`pending`, one `Sample` per
  access to an input) and a chronological log of the library calls made.
* A busy-wait loop is a recursion on a fuel counter.  Every iteration consumes
  one pending sample, so the callers give `pending.length` as fuel: the result
  is `none` exactly when the trace runs out before the awaited condition shows.
* `json_loads` (the jansson parser) is a parameter of `jsonToTurnInstruction`;
  its result is a `Json` tree or `none` for the C `NULL`.
-/

namespace Turntable

/-! ## C integers -/

/-- Value of an integer after conversion to a 32-bit two's complement C `int`. -/
def toCInt (x : Int) : Int := (x + 2147483648) % 4294967296 - 2147483648

/-- The integer is representable in a C `int`. -/
def isCInt (x : Int) : Prop := -2147483648 ≤ x ∧ x ≤ 2147483647

instance (x : Int) : Decidable (isCInt x) := by unfold isCInt; infer_instance

/-! ## Data model (the record types come from `turntable.h`) -/

/-- Modelled from the spec: `turntable.h` is not among the sources. Enumerator
`reset` of `TurntableCommands_t`; the four enumerators are numbered from 0 in
the order the spec lists them, as a C enum without initialisers is. -/
def reset : Int := 0

/-- Modelled from the spec: second enumerator of `TurntableCommands_t`. -/
def calibrate : Int := 1

/-- Modelled from the spec: third enumerator of `TurntableCommands_t`. -/
def quarterTurn : Int := 2

/-- Modelled from the spec: fourth enumerator of `TurntableCommands_t`. -/
def fineTurn : Int := 3

/-- Record `TurnInstruction_t`: the three fields `newTurnInstruction` and
`jsonToTurnInstruction` assign. `command` has the enum type
`TurntableCommands_t`, held like the other two as a C `int`. -/
structure TurnInstruction_t where
  command : Int
  rotation : Int
  direction : Int
  deriving DecidableEq

/-- Record `Turntable_t`: the five fields `initTurntable` assigns. -/
structure Turntable_t where
  maxEncoder : Int
  currentEncoder : Int
  encoder : Int
  limitSW : Int
  ttdriver : Int
  deriving DecidableEq

/-- Source: `newTurnInstruction`. -/
def newTurnInstruction (command rotation direction : Int) : TurnInstruction_t :=
  { command := command, rotation := rotation, direction := direction }

/-! ## GPIO world (the part of bcm2835 the code calls) -/

/-- The three lines `ENCODER`, `SWITCH`, `MOTOR` of the `#define`s. -/
inductive Pin
  | ENCODER
  | SWITCH
  | MOTOR
  deriving DecidableEq

/-- One library call, with the value it returned for the reading calls. -/
inductive GpioOp
  | set (pin : Pin)
  | clr (pin : Pin)
  | lev (pin : Pin) (value : Bool)
  | eds (pin : Pin) (value : Bool)
  | set_eds (pin : Pin)
  deriving DecidableEq

/-- Hardware activity seen by one access to the inputs: the line levels at the
access and whether an edge event occurred on each input line since the previous
access. -/
structure Sample where
  switchLevel : Bool := false
  encoderLevel : Bool := false
  switchEdge : Bool := false
  encoderEdge : Bool := false
  deriving DecidableEq

/-- GPIO world. -/
structure Gpio where
  motor : Bool
  edsSwitch : Bool
  edsEncoder : Bool
  pending : List Sample
  ops : List GpioOp
  deriving DecidableEq

/-- Edge events of one sample are latched into the event-detect status bits. -/
def Gpio.latch (g : Gpio) (s : Sample) : Gpio :=
  { g with edsSwitch := g.edsSwitch || s.switchEdge,
           edsEncoder := g.edsEncoder || s.encoderEdge }

/-- Event-detect status bit of a line (the output line has none). -/
def Gpio.flag (g : Gpio) : Pin → Bool
  | .SWITCH => g.edsSwitch
  | .ENCODER => g.edsEncoder
  | .MOTOR => false

/-- Library call `bcm2835_gpio_set`: drives the line high. An output write does not
observe the inputs and takes no sample. -/
def bcm2835_gpio_set (pin : Pin) (g : Gpio) : Gpio :=
  { g with motor := if pin = Pin.MOTOR then true else g.motor,
           ops := g.ops ++ [GpioOp.set pin] }

/-- Library call `bcm2835_gpio_clr`: drives the line low. -/
def bcm2835_gpio_clr (pin : Pin) (g : Gpio) : Gpio :=
  { g with motor := if pin = Pin.MOTOR then false else g.motor,
           ops := g.ops ++ [GpioOp.clr pin] }

/-- Library call `bcm2835_gpio_lev`: reads the level of a line. -/
def bcm2835_gpio_lev (pin : Pin) (g : Gpio) : Option (Bool × Gpio) :=
  match g.pending with
  | [] => none
  | s :: rest =>
    let v := match pin with
      | .SWITCH => s.switchLevel
      | .ENCODER => s.encoderLevel
      | .MOTOR => g.motor
    some (v, { g.latch s with pending := rest, ops := g.ops ++ [GpioOp.lev pin v] })

/-- Library call `bcm2835_gpio_eds`: reads the event-detect status bit of a line and
leaves it as it is. -/
def bcm2835_gpio_eds (pin : Pin) (g : Gpio) : Option (Bool × Gpio) :=
  match g.pending with
  | [] => none
  | s :: rest =>
    let v := (g.latch s).flag pin
    some (v, { g.latch s with pending := rest, ops := g.ops ++ [GpioOp.eds pin v] })

/-- Library call `bcm2835_gpio_set_eds`: clears the event-detect status bit of a line. -/
def bcm2835_gpio_set_eds (pin : Pin) (g : Gpio) : Option Gpio :=
  match g.pending with
  | [] => none
  | s :: rest =>
    let g1 := g.latch s
    some { g1 with edsSwitch := if pin = Pin.SWITCH then false else g1.edsSwitch,
                   edsEncoder := if pin = Pin.ENCODER then false else g1.edsEncoder,
                   pending := rest,
                   ops := g.ops ++ [GpioOp.set_eds pin] }

/-! ## The controller -/

/-- Loop `while (bcm2835_gpio_lev(pin) == b) { }`; the first loop of `reset_tt` has
`b = true`, the second (`while (!bcm2835_gpio_lev(pin))`) has `b = false`. -/
def spinWhileLev (pin : Pin) (b : Bool) : Nat → Gpio → Option Gpio
  | 0, _ => none
  | fuel + 1, g =>
    match bcm2835_gpio_lev pin g with
    | none => none
    | some (v, g1) => if v = b then spinWhileLev pin b fuel g1 else some g1

/-- Source: `reset_tt`. -/
def reset_tt (turntable : Turntable_t) (g : Gpio) : Option (Int × Turntable_t × Gpio) :=
  let g1 := bcm2835_gpio_set Pin.MOTOR g
  match spinWhileLev Pin.SWITCH true g1.pending.length g1 with
  | none => none
  | some g2 =>
    match spinWhileLev Pin.SWITCH false g2.pending.length g2 with
    | none => none
    | some g3 =>
      let g4 := bcm2835_gpio_clr Pin.MOTOR g3
      some (0, { turntable with maxEncoder := 0, currentEncoder := 0 }, g4)

/-- Inner loop of `calibrate_tt`: `while (!bcm2835_gpio_eds(pin)) { }`. -/
def spinUntilEds (pin : Pin) : Nat → Gpio → Option Gpio
  | 0, _ => none
  | fuel + 1, g =>
    match bcm2835_gpio_eds pin g with
    | none => none
    | some (v, g1) => if v then some g1 else spinUntilEds pin fuel g1

/-- Outer loop of `calibrate_tt`:
`while (!bcm2835_gpio_eds(SWITCH)) { while (!bcm2835_gpio_eds(ENCODER)) { } maxEncoder++; }`. -/
def calibrateLoop : Nat → Turntable_t → Gpio → Option (Turntable_t × Gpio)
  | 0, _, _ => none
  | fuel + 1, turntable, g =>
    match bcm2835_gpio_eds Pin.SWITCH g with
    | none => none
    | some (true, g1) => some (turntable, g1)
    | some (false, g1) =>
      match spinUntilEds Pin.ENCODER fuel g1 with
      | none => none
      | some g2 =>
        calibrateLoop fuel { turntable with maxEncoder := toCInt (turntable.maxEncoder + 1) } g2

/-- Source: `calibrate_tt`. -/
def calibrate_tt (turntable : Turntable_t) (g : Gpio) : Option (Int × Turntable_t × Gpio) :=
  match bcm2835_gpio_set_eds Pin.SWITCH g with
  | none => none
  | some g1 =>
    match bcm2835_gpio_set_eds Pin.ENCODER g1 with
    | none => none
    | some g2 =>
      match calibrateLoop g2.pending.length turntable g2 with
      | none => none
      | some (t1, g3) => some (0, t1, g3)

/-- Source: `quarterTurn_tt`, whose body is `return 0;`. -/
def quarterTurn_tt (turntable : Turntable_t) (_direction _quarters : Int) (g : Gpio) :
    Option (Int × Turntable_t × Gpio) :=
  some (0, turntable, g)

/-- Source: `fineTurn_tt`, whose body is `return 0;`. -/
def fineTurn_tt (turntable : Turntable_t) (_direction _ticks : Int) (g : Gpio) :
    Option (Int × Turntable_t × Gpio) :=
  some (0, turntable, g)

/-- Source: `parseTurnInstruction`, the `switch` on `instruction->command`. -/
def parseTurnInstruction (instruction : TurnInstruction_t) (turntable : Turntable_t) (g : Gpio) :
    Option (Int × Turntable_t × Gpio) :=
  if instruction.command = reset then reset_tt turntable g
  else if instruction.command = calibrate then calibrate_tt turntable g
  else if instruction.command = quarterTurn then
    quarterTurn_tt turntable instruction.direction instruction.rotation g
  else if instruction.command = fineTurn then
    fineTurn_tt turntable instruction.direction instruction.rotation g
  else some (1, turntable, g)

/-! ## The instruction codec -/

/-- A jansson value (`json_t`): its type tag and its content (for a real, the
bits of the double; the code never reads one). -/
inductive Json
  | object (members : List (String × Json))
  | array (items : List Json)
  | string (s : String)
  | integer (value : Int)
  | real (bits : Nat)
  | jtrue
  | jfalse
  | jnull

/-- Library call `json_object_get`: the member of that name, `NULL` when the value is not
an object or has no such member. -/
def json_object_get (json : Json) (key : String) : Option Json :=
  match json with
  | .object members => members.lookup key
  | _ => none

/-- Library test `json_is_object` on a pointer that may be `NULL`. -/
def json_is_object : Option Json → Bool
  | some (.object _) => true
  | _ => false

/-- Library test `json_is_integer` on a pointer that may be `NULL`. -/
def json_is_integer : Option Json → Bool
  | some (.integer _) => true
  | _ => false

/-- Library call `json_integer_value`: the value of an integer, 0 for anything else. -/
def json_integer_value : Option Json → Int
  | some (.integer v) => v
  | _ => 0

/-- Source: `jsonToTurnInstruction`. The result is the returned code and the
caller's record after the call. -/
def jsonToTurnInstruction (json_loads : String → Option Json)
    (instruction : TurnInstruction_t) (text : String) : Int × TurnInstruction_t :=
  match json_loads text with
  | none => (1, instruction)
  | some root =>
    let turnInstruction := json_object_get root "TurnInstruction"
    match turnInstruction with
    | none => (1, instruction)
    | some ti =>
      if !json_is_object (some ti) then (1, instruction)
      else
        let command := json_object_get ti "command"
        if !json_is_integer command then (1, instruction)
        else
          let rotation := json_object_get ti "rotation"
          if !json_is_integer rotation then (1, instruction)
          else
            let direction := json_object_get ti "direction"
            if !json_is_integer direction then (1, instruction)
            else
              (0, { command := toCInt (json_integer_value command),
                    rotation := toCInt (json_integer_value rotation),
                    direction := toCInt (json_integer_value direction) })

/-! ## Notions the statements use -/

/-- The wire message
`{ "TurnInstruction": { "command": c, "rotation": r, "direction": d } }`. -/
def wireMessage (c r d : Int) : Json :=
  Json.object [("TurnInstruction",
    Json.object [("command", Json.integer c), ("rotation", Json.integer r),
                 ("direction", Json.integer d)])]

/-- Number of `bcm2835_gpio_set(MOTOR)` calls in a log. -/
def motorSets (ops : List GpioOp) : Nat := ops.count (GpioOp.set Pin.MOTOR)

/-- Number of `bcm2835_gpio_clr(MOTOR)` calls in a log. -/
def motorClears (ops : List GpioOp) : Nat := ops.count (GpioOp.clr Pin.MOTOR)

/-- State of the motor line after the calls of a log, from a given starting state. -/
def motorAfter (m : Bool) : List GpioOp → Bool
  | [] => m
  | GpioOp.set Pin.MOTOR :: ops => motorAfter true ops
  | GpioOp.clr Pin.MOTOR :: ops => motorAfter false ops
  | _ :: ops => motorAfter m ops

/-- Value `calibrate_tt` gets from its first `bcm2835_gpio_eds(SWITCH)`, that is the
limit-switch edge flag after the two `bcm2835_gpio_set_eds` calls. -/
def switchFlagAtFirstTest (g : Gpio) : Option Bool :=
  match bcm2835_gpio_set_eds Pin.SWITCH g with
  | none => none
  | some g1 =>
    match bcm2835_gpio_set_eds Pin.ENCODER g1 with
    | none => none
    | some g2 =>
      match bcm2835_gpio_eds Pin.SWITCH g2 with
      | none => none
      | some (v, _) => some v

/-- A turntable record as `initTurntable` leaves it. -/
def zeroTurntable : Turntable_t :=
  { maxEncoder := 0, currentEncoder := 0, encoder := 0, limitSW := 0, ttdriver := 0 }

/-- A turntable record calibrated to 48 ticks per revolution, at home. -/
def calibrated48 : Turntable_t :=
  { maxEncoder := 48, currentEncoder := 0, encoder := 0, limitSW := 0, ttdriver := 0 }

/-- GPIO world with the motor off, no edge flag set, nothing logged, and the given
hardware activity to come. -/
def gpioWith (pending : List Sample) : Gpio :=
  { motor := false, edsSwitch := false, edsEncoder := false, pending := pending, ops := [] }

/-- The table leaves the home switch and comes back to it: the switch reads
high, low, low, high (with the rising edge latched). -/
def homingTrace : List Sample :=
  [{ switchLevel := true }, { }, { }, { switchLevel := true, switchEdge := true }]

/-- Activity after homing on which exactly one encoder edge occurs before the
limit-switch edge: nothing during the two flag clears and the first switch
test, one encoder edge, nothing for two further polls, then the switch edge. -/
def oneEdgeSweep : List Sample :=
  [{ switchLevel := true }, { switchLevel := true }, { }, { encoderEdge := true },
   { }, { }, { switchLevel := true, switchEdge := true }]

/-- Activity after homing on which the limit switch gives one more edge while
`calibrate_tt` is clearing the encoder flag. -/
def bounceSweep : List Sample :=
  [{ switchLevel := true }, { switchLevel := true, switchEdge := true }, { switchLevel := true }]

/-- A decoded message whose `"TurnInstruction"` object lacks `"rotation"`. -/
def messageWithoutRotation : Json :=
  Json.object [("TurnInstruction",
    Json.object [("command", Json.integer 1), ("direction", Json.integer 0)])]

/-- The library calls of a `reset_tt` that reads the switch high `a` times, then
low once, then low `b` more times, then high once. -/
def resetCalls (a b : Nat) : List GpioOp :=
  GpioOp.set Pin.MOTOR ::
    (List.replicate a (GpioOp.lev Pin.SWITCH true) ++ GpioOp.lev Pin.SWITCH false ::
      (List.replicate b (GpioOp.lev Pin.SWITCH false) ++
        [GpioOp.lev Pin.SWITCH true, GpioOp.clr Pin.MOTOR]))

/-- Number of encoder edge events in the samples up to and including the first one
that carries a limit-switch edge event. -/
def encoderEdgesUntilSwitchEdge : List Sample → Nat
  | [] => 0
  | s :: rest =>
    (if s.encoderEdge then 1 else 0) +
      (if s.switchEdge then 0 else encoderEdgesUntilSwitchEdge rest)

/-- Number of encoder edge events of a calibration sweep: those after the two
samples taken by the clearing of the two edge flags, up to the limit-switch edge
event. -/
def sweepEncoderEdges (pending : List Sample) : Nat :=
  encoderEdgesUntilSwitchEdge (pending.drop 2)

/-- A turntable record with every field set, away from home. -/
def turnedTurntable : Turntable_t :=
  { maxEncoder := 48, currentEncoder := 12, encoder := 5, limitSW := 1, ttdriver := 1 }

/-- The record `turnedTurntable` after a reset. -/
def homedTurntable : Turntable_t :=
  { maxEncoder := 0, currentEncoder := 0, encoder := 5, limitSW := 1, ttdriver := 1 }

/-- GPIO world after `reset_tt` has run on `homingTrace`, with further activity to
come: motor off, the rising edge of the switch latched, six calls logged. -/
def homedGpio (rest : List Sample) : Gpio :=
  { motor := false, edsSwitch := true, edsEncoder := false, pending := rest,
    ops := resetCalls 1 1 }

/-- GPIO world after `calibrate_tt` has run on `homedGpio oneEdgeSweep`. -/
def sweptGpio : Gpio :=
  { motor := false, edsSwitch := true, edsEncoder := true, pending := [],
    ops := resetCalls 1 1 ++
      [GpioOp.set_eds Pin.SWITCH, GpioOp.set_eds Pin.ENCODER,
       GpioOp.eds Pin.SWITCH false, GpioOp.eds Pin.ENCODER true,
       GpioOp.eds Pin.SWITCH false, GpioOp.eds Pin.ENCODER true,
       GpioOp.eds Pin.SWITCH true] }

/-- GPIO world after `calibrate_tt` has run on `homedGpio bounceSweep`. -/
def bouncedGpio : Gpio :=
  { motor := false, edsSwitch := true, edsEncoder := false, pending := [],
    ops := resetCalls 1 1 ++
      [GpioOp.set_eds Pin.SWITCH, GpioOp.set_eds Pin.ENCODER, GpioOp.eds Pin.SWITCH true] }

/-! ## Dispatch and the turn stubs -/

/-- C3 (as the code has it): with `maxEncoder == 0`, a `quarterTurn` or `fineTurn`
instruction, of any rotation and direction, makes `parseTurnInstruction` return
0; the turntable record and the GPIO world, its call log included, are
returned as they were, so the motor line is neither set nor cleared. -/
theorem parseTurnInstruction_turn_uncalibrated (instruction : TurnInstruction_t)
    (turntable : Turntable_t) (g : Gpio) (_hm : turntable.maxEncoder = 0)
    (hc : instruction.command = quarterTurn ∨ instruction.command = fineTurn) :
    parseTurnInstruction instruction turntable g = some (0, turntable, g) := by
  rcases hc with hc | hc <;>
    simp [parseTurnInstruction, hc, quarterTurn_tt, fineTurn_tt, reset, calibrate, quarterTurn,
      fineTurn]

/-- Witness of C3 as the code has it: a quarter turn on the zero-initialised record. -/
theorem parseTurnInstruction_turn_uncalibrated_witness :
    zeroTurntable.maxEncoder = 0 ∧
    parseTurnInstruction (newTurnInstruction quarterTurn 1 0) zeroTurntable (gpioWith []) =
      some (0, zeroTurntable, gpioWith []) :=
  ⟨rfl, parseTurnInstruction_turn_uncalibrated (newTurnInstruction quarterTurn 1 0)
    zeroTurntable (gpioWith []) rfl (Or.inl rfl)⟩

/-- C3 fails as stated: on the zero-initialised record (`maxEncoder == 0`) a
`fineTurn` of one tick does not end in a non-zero result; the code returns 0. -/
theorem parseTurnInstruction_no_NotCalibrated :
    zeroTurntable.maxEncoder = 0 ∧
    (newTurnInstruction fineTurn 1 0).command = fineTurn ∧
    parseTurnInstruction (newTurnInstruction fineTurn 1 0) zeroTurntable (gpioWith []) =
      some (0, zeroTurntable, gpioWith []) ∧
    ¬ ∃ r t g, parseTurnInstruction (newTurnInstruction fineTurn 1 0) zeroTurntable
        (gpioWith []) = some (r, t, g) ∧ r ≠ 0 := by
  refine ⟨rfl, rfl, rfl, ?_⟩
  rintro ⟨r, t, g, h, hr⟩
  have h2 : parseTurnInstruction (newTurnInstruction fineTurn 1 0) zeroTurntable (gpioWith []) =
      some (0, zeroTurntable, gpioWith []) := rfl
  rw [h2] at h
  simp only [Option.some.injEq, Prod.mk.injEq] at h
  exact hr h.1.symm

/-- C4 (as the code has it): on a calibrated record (`maxEncoder = M > 0`), a
`fineTurn` instruction of any direction and any rotation `R >= 0` returns 0 and
gives back the turntable record and the GPIO world as they were:
`currentEncoder` is not advanced and no call is made on the motor line. -/
theorem parseTurnInstruction_fineTurn_no_motion (turntable : Turntable_t) (g : Gpio)
    (D R : Int) (_hM : 0 < turntable.maxEncoder) (_hR : 0 ≤ R) :
    parseTurnInstruction (newTurnInstruction fineTurn R D) turntable g =
      some (0, turntable, g) := by
  simp [parseTurnInstruction, newTurnInstruction, fineTurn_tt, reset, calibrate, quarterTurn,
    fineTurn]

/-- Witness of C4 as the code has it: one tick on the record calibrated to 48. -/
theorem parseTurnInstruction_fineTurn_no_motion_witness :
    (0 : Int) < calibrated48.maxEncoder ∧ (0 : Int) ≤ 1 ∧
    parseTurnInstruction (newTurnInstruction fineTurn 1 0) calibrated48 (gpioWith []) =
      some (0, calibrated48, gpioWith []) :=
  ⟨by decide, by decide,
    parseTurnInstruction_fineTurn_no_motion calibrated48 (gpioWith []) 0 1 (by decide)
      (by decide)⟩

/-- C4 fails as stated: with `maxEncoder = 48`, `currentEncoder = 0`, a `fineTurn`
of `R = 1` leaves `currentEncoder` at 0, which is one tick away from 0 modulo
48 in neither direction, and the log holds no clear of the motor line. -/
theorem parseTurnInstruction_fineTurn_not_advanced :
    ∃ t g, parseTurnInstruction (newTurnInstruction fineTurn 1 0) calibrated48 (gpioWith []) =
        some (0, t, g) ∧
      t.currentEncoder = 0 ∧
      t.currentEncoder ≠ (calibrated48.currentEncoder + 1) % calibrated48.maxEncoder ∧
      t.currentEncoder ≠ (calibrated48.currentEncoder - 1) % calibrated48.maxEncoder ∧
      motorClears g.ops = 0 :=
  ⟨calibrated48, gpioWith [], rfl, rfl, by decide, by decide, rfl⟩

/-- C5 (as the code has it): on a calibrated record (`maxEncoder = M > 0`) with
`currentEncoder = 0`, a `quarterTurn` instruction of any direction and any
rotation `Q` returns 0 and gives back the turntable record and the GPIO world
as they were, so `currentEncoder` is still 0. -/
theorem parseTurnInstruction_quarterTurn_no_motion (turntable : Turntable_t) (g : Gpio)
    (D Q : Int) (_hM : 0 < turntable.maxEncoder) (hcur : turntable.currentEncoder = 0) :
    parseTurnInstruction (newTurnInstruction quarterTurn Q D) turntable g =
      some (0, turntable, g) ∧ turntable.currentEncoder = 0 := by
  simp [parseTurnInstruction, newTurnInstruction, quarterTurn_tt, reset, calibrate, quarterTurn,
    hcur]

/-- Witness of C5 as the code has it: one quarter on the record calibrated to 48. -/
theorem parseTurnInstruction_quarterTurn_no_motion_witness :
    (0 : Int) < calibrated48.maxEncoder ∧ calibrated48.currentEncoder = 0 ∧
    (parseTurnInstruction (newTurnInstruction quarterTurn 1 0) calibrated48 (gpioWith []) =
      some (0, calibrated48, gpioWith []) ∧ calibrated48.currentEncoder = 0) :=
  ⟨by decide, rfl,
    parseTurnInstruction_quarterTurn_no_motion calibrated48 (gpioWith []) 0 1 (by decide) rfl⟩

/-- C5 fails as stated: with `M = 48`, `currentEncoder = 0` and `Q = 1` the
resulting `currentEncoder` is 0, not `(1 * (48 / 4)) mod 48 = 12`. -/
theorem parseTurnInstruction_quarterTurn_not_12 :
    ∃ t g, parseTurnInstruction (newTurnInstruction quarterTurn 1 0) calibrated48
        (gpioWith []) = some (0, t, g) ∧
      t.currentEncoder = 0 ∧ (1 * (calibrated48.maxEncoder / 4)) % calibrated48.maxEncoder = 12 ∧
      t.currentEncoder ≠ (1 * (calibrated48.maxEncoder / 4)) % calibrated48.maxEncoder :=
  ⟨calibrated48, gpioWith [], rfl, rfl, by decide, by decide⟩

/-- C6: for an instruction whose command is none of `reset`, `calibrate`,
`quarterTurn`, `fineTurn`, `parseTurnInstruction` returns 1 and gives back the
turntable record and the GPIO world (levels, flags, pending activity and call
log) exactly as they were: no GPIO call is made and no field changes. -/
theorem parseTurnInstruction_unknown_command (instruction : TurnInstruction_t)
    (turntable : Turntable_t) (g : Gpio)
    (h : instruction.command ≠ reset ∧ instruction.command ≠ calibrate ∧
      instruction.command ≠ quarterTurn ∧ instruction.command ≠ fineTurn) :
    parseTurnInstruction instruction turntable g = some (1, turntable, g) := by
  obtain ⟨h1, h2, h3, h4⟩ := h
  simp [parseTurnInstruction, h1, h2, h3, h4]

/-- Witness of C6: command value 7 while hardware activity is pending. -/
theorem parseTurnInstruction_unknown_command_witness :
    ((newTurnInstruction 7 2 1).command ≠ reset ∧
      (newTurnInstruction 7 2 1).command ≠ calibrate ∧
      (newTurnInstruction 7 2 1).command ≠ quarterTurn ∧
      (newTurnInstruction 7 2 1).command ≠ fineTurn) ∧
    parseTurnInstruction (newTurnInstruction 7 2 1) calibrated48 (gpioWith homingTrace) =
      some (1, calibrated48, gpioWith homingTrace) :=
  ⟨by decide, parseTurnInstruction_unknown_command (newTurnInstruction 7 2 1) calibrated48
    (gpioWith homingTrace) (by decide)⟩

/-! ## The instruction codec -/

/-- Narrowing is the identity on the values of a C `int`. -/
theorem toCInt_of_isCInt {x : Int} (h : isCInt x) : toCInt x = x := by
  unfold isCInt at h
  unfold toCInt
  omega

/-- A narrowed value is a value of a C `int`. -/
theorem isCInt_toCInt (x : Int) : isCInt (toCInt x) := by
  unfold isCInt toCInt
  omega

/-- C7: when the parsed message has no `"TurnInstruction"` member or one that is
not an object, or when that object lacks one of `"command"`, `"rotation"`,
`"direction"` or has it with a type other than integer, `jsonToTurnInstruction`
returns 1 and the caller's record is left as it was in all three fields. -/
theorem jsonToTurnInstruction_malformed (json_loads : String → Option Json)
    (instruction : TurnInstruction_t) (text : String) (root : Json)
    (hload : json_loads text = some root)
    (hbad : json_is_object (json_object_get root "TurnInstruction") = false ∨
      ∃ ti, json_object_get root "TurnInstruction" = some ti ∧
        (json_is_integer (json_object_get ti "command") = false ∨
         json_is_integer (json_object_get ti "rotation") = false ∨
         json_is_integer (json_object_get ti "direction") = false)) :
    jsonToTurnInstruction json_loads instruction text = (1, instruction) := by
  unfold jsonToTurnInstruction
  rw [hload]
  dsimp only
  rcases hbad with h | ⟨ti, hti, h⟩
  · cases hg : json_object_get root "TurnInstruction" with
    | none => rfl
    | some ti =>
      rw [hg] at h
      simp [h]
  · rw [hti]
    dsimp only
    by_cases ho : json_is_object (some ti) = true
    · rcases h with h | h | h
      · simp [ho, h]
      · by_cases h1 : json_is_integer (json_object_get ti "command") = true
        · simp [ho, h1, h]
        · simp [ho, h1]
      · by_cases h1 : json_is_integer (json_object_get ti "command") = true
        · by_cases h2 : json_is_integer (json_object_get ti "rotation") = true
          · simp [ho, h1, h2, h]
          · simp [ho, h1, h2]
        · simp [ho, h1]
    · simp [ho]

/-- Witness of C7: the message `{"TurnInstruction": {"command": 1, "direction": 0}}`,
which lacks only `"rotation"`, decoded into a record holding 9, 9, 9. -/
theorem jsonToTurnInstruction_malformed_witness :
    json_object_get messageWithoutRotation "TurnInstruction" =
      some (Json.object [("command", Json.integer 1), ("direction", Json.integer 0)]) ∧
    json_is_integer (json_object_get
      (Json.object [("command", Json.integer 1), ("direction", Json.integer 0)]) "rotation") =
      false ∧
    jsonToTurnInstruction (fun _ => some messageWithoutRotation) (newTurnInstruction 9 9 9)
      "\x7b\"TurnInstruction\": \x7b\"command\": 1, \"direction\": 0\x7d\x7d" =
      (1, newTurnInstruction 9 9 9) :=
  ⟨rfl, rfl,
    jsonToTurnInstruction_malformed (fun _ => some messageWithoutRotation)
      (newTurnInstruction 9 9 9) _ messageWithoutRotation rfl
      (Or.inr ⟨Json.object [("command", Json.integer 1), ("direction", Json.integer 0)], rfl,
        Or.inr (Or.inl rfl)⟩)⟩

/-- C8: when the text parses to the message
`{ "TurnInstruction": { "command": c, "rotation": r, "direction": d } }`,
`jsonToTurnInstruction` returns 0 and stores each JSON integer narrowed to the C
`int` width; when `c`, `r`, `d` are the fields of a `TurnInstruction_t` record
(values of a C `int`), the record obtained is equal to that record in all three
fields, whatever the caller's record held before. -/
theorem jsonToTurnInstruction_roundtrip (json_loads : String → Option Json)
    (instruction : TurnInstruction_t) (text : String) (c r d : Int)
    (hload : json_loads text = some (wireMessage c r d)) :
    jsonToTurnInstruction json_loads instruction text =
      (0, newTurnInstruction (toCInt c) (toCInt r) (toCInt d)) ∧
    (isCInt c → isCInt r → isCInt d →
      jsonToTurnInstruction json_loads instruction text = (0, newTurnInstruction c r d)) := by
  have h : jsonToTurnInstruction json_loads instruction text =
      (0, newTurnInstruction (toCInt c) (toCInt r) (toCInt d)) := by
    unfold jsonToTurnInstruction
    rw [hload]
    simp [wireMessage, json_object_get, json_is_object, json_is_integer, json_integer_value,
      newTurnInstruction, List.lookup]
  refine ⟨h, fun hc hr hd => ?_⟩
  rw [h, toCInt_of_isCInt hc, toCInt_of_isCInt hr, toCInt_of_isCInt hd]

/-- Witness of C8: the record `{command = calibrate, rotation = 0, direction = 0}`
decoded into a record holding 9, 9, 9. -/
theorem jsonToTurnInstruction_roundtrip_witness :
    isCInt calibrate ∧ isCInt 0 ∧
    jsonToTurnInstruction (fun _ => some (wireMessage calibrate 0 0)) (newTurnInstruction 9 9 9)
      "\x7b\"TurnInstruction\": \x7b\"command\": 1, \"rotation\": 0, \"direction\": 0\x7d\x7d" =
      (0, newTurnInstruction calibrate 0 0) :=
  ⟨by decide, by decide,
    (jsonToTurnInstruction_roundtrip (fun _ => some (wireMessage calibrate 0 0))
      (newTurnInstruction 9 9 9) _ calibrate 0 0 rfl).2 (by decide) (by decide) (by decide)⟩

/-! ## The polling loops of `reset_tt` -/

/-- A read of the switch level takes the next sample and returns its level. -/
theorem gpio_lev_switch_cons {g : Gpio} {s : Sample} {rest : List Sample}
    (h : g.pending = s :: rest) :
    bcm2835_gpio_lev Pin.SWITCH g =
      some (s.switchLevel, { g.latch s with
        pending := rest, ops := g.ops ++ [GpioOp.lev Pin.SWITCH s.switchLevel] }) := by
  unfold bcm2835_gpio_lev
  rw [h]

/-- A polling loop on the switch that ends has read a run of samples at the level it
spins on, then one sample at the other level, and has logged exactly these reads. -/
theorem spinWhileLev_some (b : Bool) : ∀ (fuel : Nat) (g g' : Gpio),
    spinWhileLev Pin.SWITCH b fuel g = some g' →
    ∃ pre s rest, g.pending = pre ++ s :: rest ∧ (∀ x ∈ pre, x.switchLevel = b) ∧
      s.switchLevel = (!b) ∧ g'.pending = rest ∧ g'.motor = g.motor ∧
      g'.ops = g.ops ++ (List.replicate pre.length (GpioOp.lev Pin.SWITCH b) ++
        [GpioOp.lev Pin.SWITCH (!b)])
  | 0, g, g', h => by simp [spinWhileLev] at h
  | fuel + 1, g, g', h => by
    unfold spinWhileLev at h
    cases hp : g.pending with
    | nil => simp [bcm2835_gpio_lev, hp] at h
    | cons s rest =>
      rw [gpio_lev_switch_cons hp] at h
      dsimp only at h
      by_cases hs : s.switchLevel = b
      · rw [if_pos hs] at h
        obtain ⟨pre, s', rest', h1, h2, h3, h4, h5, h6⟩ := spinWhileLev_some b fuel _ _ h
        refine ⟨s :: pre, s', rest', ?_, ?_, h3, h4, ?_, ?_⟩
        · simp only [] at h1
          rw [h1]; rfl
        · intro x hx
          rcases List.mem_cons.mp hx with hx | hx
          · rw [hx]; exact hs
          · exact h2 x hx
        · rw [h5]; rfl
        · rw [h6]
          simp [hs, List.replicate_succ]
      · rw [if_neg hs] at h
        simp only [Option.some.injEq] at h
        subst h
        refine ⟨[], s, rest, rfl, ?_, ?_, rfl, rfl, ?_⟩
        · intro x hx; simp at hx
        · cases hb : b <;> cases hl : s.switchLevel <;> simp_all
        · have : s.switchLevel = (!b) := by
            cases hb : b <;> cases hl : s.switchLevel <;> simp_all
          simp [this]

/-- A polling loop on the switch ends when some pending sample has the level it waits
for; it stops no later than that sample. -/
theorem spinWhileLev_returns (b : Bool) : ∀ (l : List Sample) (g : Gpio) (fuel i : Nat),
    g.pending = l → l.length ≤ fuel → (∃ s, l[i]? = some s ∧ s.switchLevel = (!b)) →
    ∃ g' n, spinWhileLev Pin.SWITCH b fuel g = some g' ∧ n ≤ i ∧ g'.pending = l.drop (n + 1)
  | [], g, fuel, i, _, _, h => by simp at h
  | x :: xs, g, 0, i, _, hf, _ => by simp at hf
  | x :: xs, g, fuel + 1, i, hp, hf, h => by
    unfold spinWhileLev
    rw [gpio_lev_switch_cons hp]
    dsimp only
    by_cases hs : x.switchLevel = b
    · rw [if_pos hs]
      obtain ⟨s, hi, hl⟩ := h
      cases i with
      | zero =>
        simp at hi
        subst hi
        rw [hs] at hl
        cases b <;> simp at hl
      | succ i =>
        simp at hi
        obtain ⟨g', n, h1, h2, h3⟩ := spinWhileLev_returns b xs
          { g.latch x with
            pending := xs, ops := g.ops ++ [GpioOp.lev Pin.SWITCH x.switchLevel] } fuel i rfl
          (by simpa using hf) ⟨s, hi, hl⟩
        exact ⟨g', n + 1, h1, by omega, by simpa using h3⟩
    · rw [if_neg hs]
      exact ⟨_, 0, rfl, Nat.zero_le _, by simp⟩

/-- Samples that all have one switch level map to a constant list of levels. -/
theorem levels_eq_replicate {b : Bool} : ∀ (pre : List Sample),
    (∀ x ∈ pre, x.switchLevel = b) → pre.map Sample.switchLevel = List.replicate pre.length b
  | [], _ => rfl
  | x :: xs, h => by
    have hx : x.switchLevel = b := h x (List.mem_cons_self _ _)
    have hxs := levels_eq_replicate xs (fun y hy => h y (List.mem_cons_of_mem _ hy))
    simp [hx, hxs, List.replicate_succ]

/-- Level reads do not change the motor line. -/
theorem motorAfter_reads (m : Bool) : ∀ (l : List GpioOp),
    (∀ op ∈ l, ∃ p v, op = GpioOp.lev p v) → motorAfter m l = m
  | [], _ => rfl
  | op :: l, h => by
    obtain ⟨p, v, hop⟩ := h op (List.mem_cons_self _ _)
    subst hop
    have := motorAfter_reads m l (fun o ho => h o (List.mem_cons_of_mem _ ho))
    simpa [motorAfter] using this

/-- Complete description of a `reset_tt` that returns. -/
theorem reset_tt_some {turntable t' : Turntable_t} {g g' : Gpio} {r : Int}
    (h : reset_tt turntable g = some (r, t', g')) :
    ∃ a b : Nat,
      g.pending.map Sample.switchLevel =
        List.replicate a true ++ false ::
          (List.replicate b false ++ true :: g'.pending.map Sample.switchLevel) ∧
      g'.pending = g.pending.drop (a + b + 2) ∧
      g'.ops = g.ops ++ resetCalls a b ∧
      g'.motor = false ∧ r = 0 ∧
      t' = { turntable with maxEncoder := 0, currentEncoder := 0 } := by
  unfold reset_tt at h
  dsimp only at h
  cases h1 : spinWhileLev Pin.SWITCH true (bcm2835_gpio_set Pin.MOTOR g).pending.length
      (bcm2835_gpio_set Pin.MOTOR g) with
  | none => rw [h1] at h; simp at h
  | some g2 =>
    rw [h1] at h
    dsimp only at h
    cases h2 : spinWhileLev Pin.SWITCH false g2.pending.length g2 with
    | none => rw [h2] at h; simp at h
    | some g3 =>
      rw [h2] at h
      simp only [Option.some.injEq, Prod.mk.injEq] at h
      obtain ⟨hr, ht, hg⟩ := h
      obtain ⟨pre1, s1, rest1, p1, q1, l1, e1, m1, o1⟩ := spinWhileLev_some true _ _ _ h1
      obtain ⟨pre2, s2, rest2, p2, q2, l2, e2, m2, o2⟩ := spinWhileLev_some false _ _ _ h2
      have hp : g.pending = pre1 ++ s1 :: (pre2 ++ s2 :: rest2) := by
        have : (bcm2835_gpio_set Pin.MOTOR g).pending = g.pending := rfl
        rw [← this, p1, ← e1, p2]
      refine ⟨pre1.length, pre2.length, ?_, ?_, ?_, ?_, hr.symm, ht.symm⟩
      · rw [← hg]
        have : (bcm2835_gpio_clr Pin.MOTOR g3).pending = g3.pending := rfl
        rw [this, e2, hp]
        simp [levels_eq_replicate pre1 q1, levels_eq_replicate pre2 q2, l1, l2]
      · rw [← hg]
        have : (bcm2835_gpio_clr Pin.MOTOR g3).pending = g3.pending := rfl
        have hp2 : g.pending = (pre1 ++ s1 :: (pre2 ++ [s2])) ++ rest2 := by simp [hp]
        rw [this, e2, hp2]
        exact (List.drop_left' (by simp; omega)).symm
      · rw [← hg]
        have : (bcm2835_gpio_clr Pin.MOTOR g3).ops = g3.ops ++ [GpioOp.clr Pin.MOTOR] := rfl
        rw [this, o2, o1]
        have : (bcm2835_gpio_set Pin.MOTOR g).ops = g.ops ++ [GpioOp.set Pin.MOTOR] := rfl
        rw [this]
        simp [resetCalls]
      · rw [← hg]; rfl

/-- When the switch levels to come hold a low reading and, later, a high one,
`reset_tt` returns. -/
theorem reset_tt_returns (turntable : Turntable_t) (g : Gpio)
    (h : ∃ i j : Nat, i < j ∧ (g.pending.map Sample.switchLevel)[i]? = some false ∧
      (g.pending.map Sample.switchLevel)[j]? = some true) :
    ∃ res, reset_tt turntable g = some res := by
  obtain ⟨i, j, hij, hi, hj⟩ := h
  rw [List.getElem?_map, Option.map_eq_some'] at hi hj
  obtain ⟨si, hsi, hli⟩ := hi
  obtain ⟨sj, hsj, hlj⟩ := hj
  obtain ⟨g2, n, h1, hn, e1⟩ := spinWhileLev_returns true g.pending
    (bcm2835_gpio_set Pin.MOTOR g) g.pending.length i rfl (le_refl _) ⟨si, hsi, by simpa using hli⟩
  have hj2 : (g.pending.drop (n + 1))[j - (n + 1)]? = some sj := by
    rw [List.getElem?_drop]
    have : n + 1 + (j - (n + 1)) = j := by omega
    rw [this]
    exact hsj
  obtain ⟨g3, k, h2, _, _⟩ := spinWhileLev_returns false (g.pending.drop (n + 1)) g2
    g2.pending.length (j - (n + 1)) e1 (by rw [e1]) ⟨sj, hj2, by simpa using hlj⟩
  refine ⟨(0, { turntable with maxEncoder := 0, currentEncoder := 0 },
    bcm2835_gpio_clr Pin.MOTOR g3), ?_⟩
  unfold reset_tt
  dsimp only
  have hp : (bcm2835_gpio_set Pin.MOTOR g).pending = g.pending := rfl
  rw [hp, h1]
  dsimp only
  rw [h2]

/-- When `reset_tt` returns, the switch levels held a low reading and, later, a high one. -/
theorem reset_tt_levels {turntable : Turntable_t} {g : Gpio}
    {res : Int × Turntable_t × Gpio} (h : reset_tt turntable g = some res) :
    ∃ i j : Nat, i < j ∧ (g.pending.map Sample.switchLevel)[i]? = some false ∧
      (g.pending.map Sample.switchLevel)[j]? = some true := by
  obtain ⟨r, t', g'⟩ := res
  obtain ⟨a, b, hl, -⟩ := reset_tt_some h
  refine ⟨a, a + 1 + b, by omega, ?_, ?_⟩
  · rw [hl, List.getElem?_append_right (by simp)]
    simp
  · rw [hl, List.getElem?_append_right (by simp; omega)]
    have : a + 1 + b - (List.replicate a true).length = b + 1 := by simp; omega
    rw [this, List.getElem?_cons_succ, List.getElem?_append_right (by simp)]
    simp

/-- Replaying a log in two parts. -/
theorem motorAfter_append : ∀ (l1 l2 : List GpioOp) (m : Bool),
    motorAfter m (l1 ++ l2) = motorAfter (motorAfter m l1) l2
  | [], _, _ => rfl
  | op :: l1, l2, m => by
    have ih := motorAfter_append l1 l2
    cases op with
    | set p => cases p <;> simp [motorAfter, ih]
    | clr p => cases p <;> simp [motorAfter, ih]
    | lev p v => simp [motorAfter, ih]
    | eds p v => simp [motorAfter, ih]
    | set_eds p => simp [motorAfter, ih]

/-- The calls of a reset are one set of the motor line, `a + b + 2` level reads and
one clear of the motor line. -/
theorem resetCalls_shape (a b : Nat) :
    ∃ R : List GpioOp, (∀ op ∈ R, ∃ p v, op = GpioOp.lev p v) ∧ R.length = a + b + 2 ∧
      resetCalls a b = GpioOp.set Pin.MOTOR :: (R ++ [GpioOp.clr Pin.MOTOR]) := by
  refine ⟨List.replicate a (GpioOp.lev Pin.SWITCH true) ++ GpioOp.lev Pin.SWITCH false ::
    (List.replicate b (GpioOp.lev Pin.SWITCH false) ++ [GpioOp.lev Pin.SWITCH true]), ?_, ?_, ?_⟩
  · intro op hop
    simp only [List.mem_append, List.mem_cons, List.mem_replicate, List.mem_singleton,
      List.not_mem_nil, or_false] at hop
    rcases hop with ⟨-, e⟩ | e | ⟨-, e⟩ | e <;> exact ⟨_, _, e⟩
  · simp; omega
  · simp [resetCalls]

/-- C1: for an instruction whose command is `reset`, of any rotation and direction,
and any turntable record, `parseTurnInstruction` returns exactly when the
limit-switch levels to come hold an inactive reading followed, later, by an
active one; whenever it returns, the result is 0 and the record has
`maxEncoder == 0` and `currentEncoder == 0`. -/
theorem parseTurnInstruction_reset (instruction : TurnInstruction_t) (turntable : Turntable_t)
    (g : Gpio) (hc : instruction.command = reset) :
    ((parseTurnInstruction instruction turntable g).isSome ↔
      ∃ i j : Nat, i < j ∧ (g.pending.map Sample.switchLevel)[i]? = some false ∧
        (g.pending.map Sample.switchLevel)[j]? = some true) ∧
    ∀ r t' g', parseTurnInstruction instruction turntable g = some (r, t', g') →
      r = 0 ∧ t'.maxEncoder = 0 ∧ t'.currentEncoder = 0 := by
  have hp : parseTurnInstruction instruction turntable g = reset_tt turntable g := by
    simp [parseTurnInstruction, hc]
  rw [hp]
  refine ⟨⟨fun h => ?_, fun h => ?_⟩, fun r t' g' h => ?_⟩
  · obtain ⟨res, hres⟩ := Option.isSome_iff_exists.mp h
    exact reset_tt_levels hres
  · obtain ⟨res, hres⟩ := reset_tt_returns turntable g h
    rw [hres]; rfl
  · obtain ⟨a, b, -, -, -, -, hr, ht⟩ := reset_tt_some h
    rw [ht]
    exact ⟨hr, rfl, rfl⟩

/-- Witness of C1: a reset instruction with rotation 3 and direction 1 on a record
with `maxEncoder = 48`, `currentEncoder = 12`, the switch reading high, low,
low, high. -/
theorem parseTurnInstruction_reset_witness :
    (newTurnInstruction reset 3 1).command = reset ∧
    (parseTurnInstruction (newTurnInstruction reset 3 1) turnedTurntable
      (gpioWith homingTrace)).isSome = true ∧
    parseTurnInstruction (newTurnInstruction reset 3 1) turnedTurntable (gpioWith homingTrace) =
      some (0, homedTurntable, homedGpio []) ∧
    ((0 : Int) = 0 ∧ homedTurntable.maxEncoder = 0 ∧ homedTurntable.currentEncoder = 0) :=
  ⟨rfl,
    (parseTurnInstruction_reset (newTurnInstruction reset 3 1) turnedTurntable
      (gpioWith homingTrace) rfl).1.mpr ⟨1, 3, by decide, rfl, rfl⟩,
    rfl,
    (parseTurnInstruction_reset (newTurnInstruction reset 3 1) turnedTurntable
      (gpioWith homingTrace) rfl).2 0 homedTurntable (homedGpio []) rfl⟩

/-- C10: when `reset_tt` returns, the switch levels it read are `a` high readings,
one low, `b` further low readings and one high (the rest of the trace is left
pending), and the calls it made are `resetCalls a b`: one set of the motor
line, these reads in order, one clear of the motor line. The motor line is
high after the set and after every read, low after the clear and on return;
the last level read is high; the result is 0 and the fields `encoder`,
`limitSW`, `ttdriver` are as before. -/
theorem reset_tt_operations (turntable t' : Turntable_t) (g g' : Gpio) (r : Int)
    (h : reset_tt turntable g = some (r, t', g')) :
    ∃ a b : Nat,
      g.pending.map Sample.switchLevel =
        List.replicate a true ++ false ::
          (List.replicate b false ++ true :: g'.pending.map Sample.switchLevel) ∧
      g'.pending = g.pending.drop (a + b + 2) ∧
      g'.ops = g.ops ++ resetCalls a b ∧
      motorSets (resetCalls a b) = 1 ∧ motorClears (resetCalls a b) = 1 ∧
      (∀ k, 1 ≤ k → k ≤ a + b + 3 → motorAfter g.motor ((resetCalls a b).take k) = true) ∧
      motorAfter g.motor (resetCalls a b) = false ∧
      g'.motor = false ∧ r = 0 ∧
      t'.encoder = turntable.encoder ∧ t'.limitSW = turntable.limitSW ∧
      t'.ttdriver = turntable.ttdriver := by
  obtain ⟨a, b, hl, hd, ho, hm, hr, ht⟩ := reset_tt_some h
  refine ⟨a, b, hl, hd, ho, ?_, ?_, ?_, ?_, hm, hr, ?_, ?_, ?_⟩
  · simp [motorSets, resetCalls, List.count_cons, List.count_append, List.count_replicate]
  · simp [motorClears, resetCalls, List.count_cons, List.count_append, List.count_replicate]
  · intro k hk1 hk2
    obtain ⟨k, rfl⟩ : ∃ k0, k = k0 + 1 := ⟨k - 1, by omega⟩
    obtain ⟨R, hR, hlen, hsplit⟩ := resetCalls_shape a b
    rw [hsplit, List.take_succ_cons, List.take_append_of_le_length (by omega)]
    show motorAfter true _ = true
    exact motorAfter_reads true _ (fun op hop => hR op (List.mem_of_mem_take hop))
  · obtain ⟨R, hR, hlen, hsplit⟩ := resetCalls_shape a b
    rw [hsplit]
    show motorAfter true (R ++ [GpioOp.clr Pin.MOTOR]) = false
    rw [motorAfter_append R [GpioOp.clr Pin.MOTOR] true, motorAfter_reads true R hR]
    rfl
  · rw [ht]
  · rw [ht]
  · rw [ht]

/-- Witness of C10: the switch reads high, low, low, high (`a = 1`, `b = 1`). -/
theorem reset_tt_operations_witness :
    reset_tt turnedTurntable (gpioWith homingTrace) = some (0, homedTurntable, homedGpio []) ∧
    ∃ a b : Nat,
      (gpioWith homingTrace).pending.map Sample.switchLevel =
        List.replicate a true ++ false ::
          (List.replicate b false ++ true :: (homedGpio []).pending.map Sample.switchLevel) ∧
      (homedGpio []).pending = (gpioWith homingTrace).pending.drop (a + b + 2) ∧
      (homedGpio []).ops = (gpioWith homingTrace).ops ++ resetCalls a b ∧
      motorSets (resetCalls a b) = 1 ∧ motorClears (resetCalls a b) = 1 ∧
      (∀ k, 1 ≤ k → k ≤ a + b + 3 →
        motorAfter (gpioWith homingTrace).motor ((resetCalls a b).take k) = true) ∧
      motorAfter (gpioWith homingTrace).motor (resetCalls a b) = false ∧
      (homedGpio []).motor = false ∧ (0 : Int) = 0 ∧
      homedTurntable.encoder = turnedTurntable.encoder ∧
      homedTurntable.limitSW = turnedTurntable.limitSW ∧
      homedTurntable.ttdriver = turnedTurntable.ttdriver :=
  ⟨rfl, reset_tt_operations turnedTurntable homedTurntable (gpioWith homingTrace) (homedGpio [])
    0 rfl⟩

/-! ## The calibration loop -/

/-- A query of an edge flag takes one sample. -/
theorem gpio_eds_length {pin : Pin} {g g1 : Gpio} {v : Bool}
    (h : bcm2835_gpio_eds pin g = some (v, g1)) : g1.pending.length + 1 = g.pending.length := by
  unfold bcm2835_gpio_eds at h
  cases hp : g.pending with
  | nil => rw [hp] at h; simp at h
  | cons s rest =>
    rw [hp] at h
    simp only [Option.some.injEq, Prod.mk.injEq] at h
    rw [← h.2]
    rfl

/-- A clear of an edge flag takes one sample. -/
theorem gpio_set_eds_length {pin : Pin} {g g1 : Gpio}
    (h : bcm2835_gpio_set_eds pin g = some g1) : g1.pending.length + 1 = g.pending.length := by
  unfold bcm2835_gpio_set_eds at h
  cases hp : g.pending with
  | nil => rw [hp] at h; simp at h
  | cons s rest =>
    rw [hp] at h
    simp only [Option.some.injEq] at h
    rw [← h]
    rfl

/-- The inner loop of `calibrate_tt` takes at least one sample. -/
theorem spinUntilEds_length (pin : Pin) : ∀ (fuel : Nat) (g g' : Gpio),
    spinUntilEds pin fuel g = some g' → g'.pending.length < g.pending.length
  | 0, _, _, h => by simp [spinUntilEds] at h
  | fuel + 1, g, g', h => by
    unfold spinUntilEds at h
    cases he : bcm2835_gpio_eds pin g with
    | none => rw [he] at h; simp at h
    | some res =>
      obtain ⟨v, g1⟩ := res
      rw [he] at h
      dsimp only at h
      have hl := gpio_eds_length he
      cases v with
      | true =>
        simp only [if_true, Option.some.injEq] at h
        rw [← h]; omega
      | false =>
        simp only [Bool.false_eq_true, if_false] at h
        have := spinUntilEds_length pin fuel g1 g' h
        omega

/-- The outer loop of `calibrate_tt` takes at least one sample. -/
theorem calibrateLoop_length : ∀ (fuel : Nat) (t t' : Turntable_t) (g g' : Gpio),
    calibrateLoop fuel t g = some (t', g') → g'.pending.length < g.pending.length
  | 0, _, _, _, _, h => by simp [calibrateLoop] at h
  | fuel + 1, t, t', g, g', h => by
    unfold calibrateLoop at h
    cases he : bcm2835_gpio_eds Pin.SWITCH g with
    | none => rw [he] at h; simp at h
    | some res =>
      obtain ⟨v, g1⟩ := res
      rw [he] at h
      have hl := gpio_eds_length he
      cases v with
      | true =>
        simp only [Option.some.injEq, Prod.mk.injEq] at h
        rw [← h.2]; omega
      | false =>
        dsimp only at h
        cases hs : spinUntilEds Pin.ENCODER fuel g1 with
        | none => rw [hs] at h; simp at h
        | some g2 =>
          rw [hs] at h
          dsimp only at h
          have h1 := spinUntilEds_length _ _ _ _ hs
          have h2 := calibrateLoop_length fuel _ _ _ _ h
          omega

/-- While the counter cannot overflow, the outer loop of `calibrate_tt` never lowers
`maxEncoder` and leaves `currentEncoder` alone. -/
theorem calibrateLoop_count : ∀ (fuel : Nat) (t t' : Turntable_t) (g g' : Gpio),
    calibrateLoop fuel t g = some (t', g') → 0 ≤ t.maxEncoder →
    t.maxEncoder + ((g.pending.length - g'.pending.length : Nat) : Int) < 2147483648 →
    t.maxEncoder ≤ t'.maxEncoder ∧ t'.currentEncoder = t.currentEncoder
  | 0, _, _, _, _, h, _, _ => by simp [calibrateLoop] at h
  | fuel + 1, t, t', g, g', h, h0, hb => by
    unfold calibrateLoop at h
    cases he : bcm2835_gpio_eds Pin.SWITCH g with
    | none => rw [he] at h; simp at h
    | some res =>
      obtain ⟨v, g1⟩ := res
      rw [he] at h
      have hl := gpio_eds_length he
      cases v with
      | true =>
        simp only [Option.some.injEq, Prod.mk.injEq] at h
        rw [← h.1]
        exact ⟨le_refl _, rfl⟩
      | false =>
        dsimp only at h
        cases hs : spinUntilEds Pin.ENCODER fuel g1 with
        | none => rw [hs] at h; simp at h
        | some g2 =>
          rw [hs] at h
          dsimp only at h
          have h1 := spinUntilEds_length _ _ _ _ hs
          have h2 := calibrateLoop_length fuel _ _ _ _ h
          have hw : toCInt (t.maxEncoder + 1) = t.maxEncoder + 1 := by
            apply toCInt_of_isCInt
            unfold isCInt
            omega
          rw [hw] at h
          have ih := calibrateLoop_count fuel _ _ _ _ h (by simp; omega) (by simp; omega)
          simp at ih
          exact ⟨by omega, ih.2⟩

/-- C9 (as the code has it): on a trace on which `reset_tt` and then
`calibrate_tt` return, with `calibrate_tt` taking fewer than 2^31 samples (the
`int` counter cannot overflow): when the limit-switch edge flag is clear at the
first test `calibrate_tt` makes of it, the state reached satisfies
`0 <= currentEncoder < maxEncoder`; when the flag is already set at that first
test, the loop body never runs and the state reached has `maxEncoder == 0` and
`currentEncoder == 0`. -/
theorem reset_calibrate_invariant (turntable t1 t2 : Turntable_t) (g g1 g2 : Gpio) (r1 r2 : Int)
    (hreset : reset_tt turntable g = some (r1, t1, g1))
    (hcal : calibrate_tt t1 g1 = some (r2, t2, g2))
    (hlen : g1.pending.length - g2.pending.length < 2147483648) :
    (switchFlagAtFirstTest g1 = some false →
      0 ≤ t2.currentEncoder ∧ t2.currentEncoder < t2.maxEncoder) ∧
    (switchFlagAtFirstTest g1 = some true → t2.maxEncoder = 0 ∧ t2.currentEncoder = 0) := by
  obtain ⟨a, b, -, -, -, -, -, ht1⟩ := reset_tt_some hreset
  unfold calibrate_tt at hcal
  unfold switchFlagAtFirstTest
  cases ha : bcm2835_gpio_set_eds Pin.SWITCH g1 with
  | none => rw [ha] at hcal; simp at hcal
  | some ga =>
    rw [ha] at hcal
    dsimp only at hcal ⊢
    cases hb : bcm2835_gpio_set_eds Pin.ENCODER ga with
    | none => rw [hb] at hcal; simp at hcal
    | some gb =>
      rw [hb] at hcal
      dsimp only at hcal ⊢
      cases hloop : calibrateLoop gb.pending.length t1 gb with
      | none => rw [hloop] at hcal; simp at hcal
      | some res =>
        obtain ⟨t3, g3⟩ := res
        rw [hloop] at hcal
        simp only [Option.some.injEq, Prod.mk.injEq] at hcal
        obtain ⟨-, ht3, hg3⟩ := hcal
        subst ht3 hg3
        have la := gpio_set_eds_length ha
        have lb := gpio_set_eds_length hb
        cases hf : gb.pending.length with
        | zero => rw [hf] at hloop; simp [calibrateLoop] at hloop
        | succ fuel =>
          rw [hf] at hloop
          unfold calibrateLoop at hloop
          cases he : bcm2835_gpio_eds Pin.SWITCH gb with
          | none => rw [he] at hloop; simp at hloop
          | some res =>
            obtain ⟨v, gc⟩ := res
            rw [he] at hloop
            have lc := gpio_eds_length he
            cases v with
            | true =>
              simp only [Option.some.injEq, Prod.mk.injEq] at hloop
              rw [← hloop.1, ht1]
              simp
            | false =>
              dsimp only at hloop ⊢
              cases hs : spinUntilEds Pin.ENCODER fuel gc with
              | none => rw [hs] at hloop; simp at hloop
              | some gd =>
                rw [hs] at hloop
                dsimp only at hloop
                have ld := spinUntilEds_length _ _ _ _ hs
                have le := calibrateLoop_length _ _ _ _ _ hloop
                have hm : t1.maxEncoder = 0 := by rw [ht1]
                have hc : t1.currentEncoder = 0 := by rw [ht1]
                have hw : toCInt (t1.maxEncoder + 1) = 1 := by rw [hm]; rfl
                rw [hw] at hloop
                have hcount := calibrateLoop_count _ _ _ _ _ hloop (by simp) (by simp; omega)
                simp only at hcount
                refine ⟨fun _ => ?_, fun h => by simp at h⟩
                rw [hcount.2, hc]
                omega

/-- Witness of C9 as the code has it: homing, then a sweep on which the switch edge
flag is clear at the first test. -/
theorem reset_calibrate_invariant_witness :
    reset_tt turnedTurntable (gpioWith (homingTrace ++ oneEdgeSweep)) =
      some (0, homedTurntable, homedGpio oneEdgeSweep) ∧
    calibrate_tt homedTurntable (homedGpio oneEdgeSweep) =
      some (0, { homedTurntable with maxEncoder := 2 }, sweptGpio) ∧
    (homedGpio oneEdgeSweep).pending.length - sweptGpio.pending.length < 2147483648 ∧
    switchFlagAtFirstTest (homedGpio oneEdgeSweep) = some false ∧
    ((0 : Int) ≤ ({ homedTurntable with maxEncoder := 2 } : Turntable_t).currentEncoder ∧
      ({ homedTurntable with maxEncoder := 2 } : Turntable_t).currentEncoder <
        ({ homedTurntable with maxEncoder := 2 } : Turntable_t).maxEncoder) :=
  ⟨rfl, rfl, by decide, rfl,
    (reset_calibrate_invariant turnedTurntable homedTurntable
      { homedTurntable with maxEncoder := 2 } (gpioWith (homingTrace ++ oneEdgeSweep))
      (homedGpio oneEdgeSweep) sweptGpio 0 0 rfl rfl (by decide)).1 rfl⟩

/-- C9 fails as stated: after homing, a limit-switch edge that arrives while
`calibrate_tt` clears the encoder flag is already latched at the first test of
the switch flag; both procedures return, `maxEncoder` is 0 and
`0 <= currentEncoder < maxEncoder` does not hold. -/
theorem reset_calibrate_switch_flag_already_set :
    reset_tt turnedTurntable (gpioWith (homingTrace ++ bounceSweep)) =
      some (0, homedTurntable, homedGpio bounceSweep) ∧
    switchFlagAtFirstTest (homedGpio bounceSweep) = some true ∧
    calibrate_tt homedTurntable (homedGpio bounceSweep) = some (0, homedTurntable, bouncedGpio) ∧
    homedTurntable.maxEncoder = 0 ∧
    ¬ (0 ≤ homedTurntable.currentEncoder ∧
      homedTurntable.currentEncoder < homedTurntable.maxEncoder) :=
  ⟨rfl, rfl, rfl, rfl, by decide⟩

/-- C2 at a failing input: after homing, one encoder edge event occurs in the whole
calibration sweep, between the clearing of the flags and the limit-switch edge
event; `calibrate_tt` returns with `currentEncoder == 0` and `maxEncoder == 2`.
The encoder flag is never cleared inside the loop, so the second wait for an
encoder edge ends at once on the flag the first edge left set. -/
theorem calibrate_tt_counts_polls_not_edges :
    reset_tt turnedTurntable (gpioWith (homingTrace ++ oneEdgeSweep)) =
      some (0, homedTurntable, homedGpio oneEdgeSweep) ∧
    homedTurntable.maxEncoder = 0 ∧
    (homedGpio oneEdgeSweep).pending = oneEdgeSweep ∧
    sweepEncoderEdges oneEdgeSweep = 1 ∧
    oneEdgeSweep.countP Sample.encoderEdge = 1 ∧
    calibrate_tt homedTurntable (homedGpio oneEdgeSweep) =
      some (0, { homedTurntable with maxEncoder := 2 }, sweptGpio) ∧
    ({ homedTurntable with maxEncoder := 2 } : Turntable_t).maxEncoder ≠
      (sweepEncoderEdges oneEdgeSweep : Int) :=
  ⟨rfl, rfl, rfl, rfl, rfl, rfl, by decide⟩

/-! ## The fuel given by the callers is enough -/

/-- Fuel beyond the number of pending samples does not change the result of a
polling loop on a level. -/
theorem spinWhileLev_fuel (pin : Pin) (b : Bool) : ∀ (fuel : Nat) (g : Gpio),
    g.pending.length ≤ fuel →
    spinWhileLev pin b fuel g = spinWhileLev pin b g.pending.length g
  | 0, g, h => by
    have : g.pending.length = 0 := by omega
    rw [this]
  | fuel + 1, g, h => by
    cases hp : g.pending with
    | nil =>
      simp [spinWhileLev, bcm2835_gpio_lev, hp]
    | cons s rest =>
      have e : (s :: rest).length = rest.length + 1 := rfl
      rw [e]
      unfold spinWhileLev
      unfold bcm2835_gpio_lev
      rw [hp]
      dsimp only
      split
      · rw [spinWhileLev_fuel pin b fuel _ (by rw [hp] at h; simpa using h)]
      · rfl

/-- Fuel beyond the number of pending samples does not change the result of the
inner loop of `calibrate_tt`. -/
theorem spinUntilEds_fuel (pin : Pin) : ∀ (fuel : Nat) (g : Gpio),
    g.pending.length ≤ fuel →
    spinUntilEds pin fuel g = spinUntilEds pin g.pending.length g
  | 0, g, h => by
    have : g.pending.length = 0 := by omega
    rw [this]
  | fuel + 1, g, h => by
    cases hp : g.pending with
    | nil =>
      simp [spinUntilEds, bcm2835_gpio_eds, hp]
    | cons s rest =>
      have e : (s :: rest).length = rest.length + 1 := rfl
      rw [e]
      unfold spinUntilEds
      unfold bcm2835_gpio_eds
      rw [hp]
      dsimp only
      split
      · rfl
      · rw [spinUntilEds_fuel pin fuel _ (by rw [hp] at h; simpa using h)]

/-- Fuel beyond the number of pending samples does not change the result of the
outer loop of `calibrate_tt`. -/
theorem calibrateLoop_fuel : ∀ (fuel : Nat) (t : Turntable_t) (g : Gpio),
    g.pending.length ≤ fuel →
    calibrateLoop fuel t g = calibrateLoop g.pending.length t g := by
  intro fuel
  induction fuel using Nat.strong_induction_on with
  | _ fuel ih =>
    intro t g h
    cases fuel with
    | zero =>
      have : g.pending.length = 0 := by omega
      rw [this]
    | succ fuel =>
      cases hp : g.pending with
      | nil => simp [calibrateLoop, bcm2835_gpio_eds, hp]
      | cons s rest =>
        have e : (s :: rest).length = rest.length + 1 := rfl
        have hr : rest.length ≤ fuel := by rw [hp] at h; simpa using h
        rw [e]
        unfold calibrateLoop
        cases he : bcm2835_gpio_eds Pin.SWITCH g with
        | none => rfl
        | some res =>
          obtain ⟨v, g1⟩ := res
          have l1 : g1.pending.length = rest.length := by
            have := gpio_eds_length he
            rw [hp] at this
            simpa using this
          cases v with
          | true => rfl
          | false =>
            dsimp only
            rw [spinUntilEds_fuel _ fuel g1 (by omega), ← l1]
            cases hs : spinUntilEds Pin.ENCODER g1.pending.length g1 with
            | none => rfl
            | some g2 =>
              dsimp only
              have l2 := spinUntilEds_length _ _ _ _ hs
              rw [ih fuel (by omega) _ g2 (by omega), ih g1.pending.length (by omega) _ g2 (by omega)]

end Turntable
